import Mathlib

/-!
Verification of the caching / invalidation / recommendation-scoring subsystem
of the odeluapi repository (Python / FastAPI), by shallow embedding.

Strings are modelled as `List Char` throughout.  Python ids (Mongo ObjectIds
rendered as hex strings) are `List Char` as well.  Ratings and scores are
modelled as `ℚ` (the Python / Mongo arithmetic involved — additions, one exact
division, multiplications by integer constants — is exact on the values the
spec talks about).  Fallible Python code is modelled with `Except`.
-/

namespace Odelu

/-- Strings of the modelled program. -/
abbrev Str := List Char

/-- ASCII lowercasing, modelling Python `str.lower` / Mongo `$toLower` on the
ASCII titles the spec discusses. -/
def lowerStr (s : Str) : Str := s.map Char.toLower

/-- Boolean test that `pat` occurs as a contiguous substring of `s`.  This is
the semantics of the anchored-free regular expression
`.*re.escape(pat).*` used in `movie_controller.py` / `show_controller.py`
(the pattern text is `re.escape`d, so it is matched literally). -/
def containsSub (s pat : Str) : Bool :=
  match s with
  | [] => pat.isEmpty
  | _ :: t => pat.isPrefixOf s || containsSub t pat

/-- Mongo `$split` by the one-character separator `" "`: splits on every
single space, keeping empty fragments. -/
def splitOnSpace : Str → List Str
  | [] => [[]]
  | c :: t =>
    match splitOnSpace t with
    | [] => [[]]
    | w :: ws => if c = ' ' then [] :: w :: ws else (c :: w) :: ws

/-- Test that the two word lists have a common element; this is the
`$gt [$size ($setIntersection [a, b]), 0]` test of the aggregation pipeline
(a set intersection is nonempty exactly when some element is shared). -/
def hasCommonWord (a b : List Str) : Bool :=
  a.any (fun w => b.contains w)

/-- Title-similarity tier of the recommendation pipeline in
`movie_controller.py` lines 172-196 (identically in `show_controller.py`
lines 177-200): 100 when the lowercased reference title occurs inside the
lowercased candidate title (`$regexMatch` of the escaped reference pattern
against the candidate), else 70 when the space-split word lists intersect,
else 0. -/
def titleSimilarity (refTitle candTitle : Str) : ℚ :=
  if containsSub (lowerStr candTitle) (lowerStr refTitle) then 100
  else if hasCommonWord (splitOnSpace (lowerStr candTitle)) (splitOnSpace (lowerStr refTitle)) then 70
  else 0

/-- Catalog document as used by the scoring pipeline: its id, title, optional
tags array (absent / non-array tags collapse to `none`, matching the
`$isArray` guard) and optional rating (`$ifNull` 0). -/
structure Doc where
  id : Str
  title : Str
  tags : Option (List Str)
  rating : Option ℚ
deriving DecidableEq

/-- Mongo `$setIntersection`: the distinct elements common to both arrays. -/
def setInter (a b : List Str) : List Str :=
  a.dedup.filter (fun t => b.contains t)

/-- Field `tagOverlap` of the pipeline: size of the set intersection of the
candidate's tags with the reference tags, 0 when the candidate has no tags
array. -/
def tagOverlap (refTags : List Str) (cand : Doc) : ℕ :=
  match cand.tags with
  | some ts => (setInter ts refTags).length
  | none => 0

/-- Field `tagCount` of the pipeline: raw size of the candidate's tags
array. -/
def tagCount (cand : Doc) : ℕ :=
  match cand.tags with
  | some ts => ts.length
  | none => 0

/-- Field `score` of the pipeline (`movie_controller.py` lines 223-243):
title similarity, plus `(tagOverlap / tagCount) * 50` guarded by
`tagCount = 0`, plus `rating * 3` with a null rating read as 0. -/
def score (ref cand : Doc) : ℚ :=
  titleSimilarity ref.title cand.title
    + (if tagCount cand = 0 then 0 else (tagOverlap (ref.tags.getD []) cand : ℚ) / (tagCount cand : ℚ)) * 50
    + (cand.rating.getD 0) * 3

/-- Related-items pipeline: exclude the reference document by id, sort by
score descending (a stable sort), keep the first 6. -/
def relatedDocs (ref : Doc) (coll : List Doc) : List Doc :=
  (((coll.filter (fun d => d.id ≠ ref.id)).mergeSort
      (fun a b => score ref b ≤ score ref a)).take 6)

/-- Title component exactly as the specification sentence claims it:
100 when the reference title occurs case-insensitively inside the candidate
title OR the other way round; else 70 on a shared whitespace-delimited word;
else 0. -/
def titleSimilaritySpecClaimed (refTitle candTitle : Str) : ℚ :=
  if lowerStr refTitle <:+: lowerStr candTitle ∨ lowerStr candTitle <:+: lowerStr refTitle then 100
  else if ∃ w ∈ splitOnSpace (lowerStr refTitle), w ∈ splitOnSpace (lowerStr candTitle) then 70
  else 0

/-- Title component as amended: only the one direction the code implements —
100 when the reference title occurs case-insensitively inside the candidate
title; else 70 on a shared whitespace-delimited word; else 0. -/
def titleSimilaritySpecAmended (refTitle candTitle : Str) : ℚ :=
  if lowerStr refTitle <:+: lowerStr candTitle then 100
  else if ∃ w ∈ splitOnSpace (lowerStr refTitle), w ∈ splitOnSpace (lowerStr candTitle) then 70
  else 0

theorem containsSub_iff (s pat : Str) : containsSub s pat = true ↔ pat <:+: s := by
  induction s with
  | nil =>
    simp [containsSub, List.isEmpty_iff]
  | cons c t ih =>
    simp only [containsSub, Bool.or_eq_true, ih, List.isPrefixOf_iff_prefix]
    rw [List.infix_cons_iff]

theorem hasCommonWord_iff (a b : List Str) :
    hasCommonWord a b = true ↔ ∃ w ∈ a, w ∈ b := by
  simp [hasCommonWord, List.any_eq_true]

theorem titleSimilarity_eq_amended (refTitle candTitle : Str) :
    titleSimilarity refTitle candTitle = titleSimilaritySpecAmended refTitle candTitle := by
  unfold titleSimilarity titleSimilaritySpecAmended
  by_cases h1 : lowerStr refTitle <:+: lowerStr candTitle
  · rw [if_pos ((containsSub_iff _ _).mpr h1), if_pos h1]
  · rw [if_neg (fun hc => h1 ((containsSub_iff _ _).mp hc)), if_neg h1]
    by_cases h2 : ∃ w ∈ splitOnSpace (lowerStr refTitle), w ∈ splitOnSpace (lowerStr candTitle)
    · obtain ⟨w, hwr, hwc⟩ := h2
      rw [if_pos ((hasCommonWord_iff _ _).mpr ⟨w, hwc, hwr⟩),
        if_pos ⟨w, hwr, hwc⟩]
    · rw [if_neg (fun hc => by
        obtain ⟨w, hwc, hwr⟩ := (hasCommonWord_iff _ _).mp hc
        exact h2 ⟨w, hwr, hwc⟩), if_neg h2]

/-- C1, counterexample.  With reference title "aa b" and candidate title
"aa", the candidate title occurs inside the reference title (the claim's
vice-versa case, so the claim demands 100), yet the pipeline's title
component is 70: the code only tests the one direction. -/
theorem C1_counterexample :
    titleSimilaritySpecClaimed "aa b".data "aa".data = 100 ∧
      titleSimilarity "aa b".data "aa".data = 70 := by
  constructor
  · rw [titleSimilaritySpecClaimed, if_pos]
    right
    decide
  · decide

/-- C1 (amended): for every reference and candidate title, the pipeline's
title-similarity component is 100 when the reference title occurs as a
case-insensitive substring of the candidate title (one direction only);
else 70 when the two titles share a whitespace-delimited word
(case-insensitively); else 0. -/
theorem C1_title_component (refTitle candTitle : Str) :
    titleSimilarity refTitle candTitle = titleSimilaritySpecAmended refTitle candTitle :=
  titleSimilarity_eq_amended refTitle candTitle

/-- Final per-candidate score phrased from the specification's sentences:
title component, plus shared-tag-count over the candidate's total tag count
scaled by 50 (0 when the candidate has no tags), plus rating times 3. -/
def specScore (ref cand : Doc) : ℚ :=
  titleSimilaritySpecAmended ref.title cand.title
    + (match cand.tags with
       | none => 0
       | some ts =>
         if ts.length = 0 then 0
         else ((setInter ts (ref.tags.getD [])).length : ℚ) / (ts.length : ℚ) * 50)
    + (cand.rating.getD 0) * 3

theorem score_eq_specScore (ref cand : Doc) : score ref cand = specScore ref cand := by
  rcases cand with ⟨i, t, tags, r⟩
  cases tags with
  | none =>
    simp [score, specScore, tagOverlap, tagCount, titleSimilarity_eq_amended]
  | some ts =>
    by_cases h : ts.length = 0
    · simp [score, specScore, tagOverlap, tagCount, titleSimilarity_eq_amended, h]
    · simp only [score, specScore, tagOverlap, tagCount, titleSimilarity_eq_amended, h,
        if_false]

/-- Scenario reference item of the spec: title "Inception",
tags Action and Sci-Fi. -/
def scenarioRef : Doc :=
  { id := "r1".data, title := "Inception".data,
    tags := some ["Action".data, "Sci-Fi".data], rating := none }

/-- Scenario candidate item of the spec: title "Inception 2";
four tags of which Action and Sci-Fi are shared; rating 8. -/
def scenarioCand : Doc :=
  { id := "c1".data, title := "Inception 2".data,
    tags := some ["Action".data, "Drama".data, "Sci-Fi".data, "Thriller".data],
    rating := some 8 }

theorem scenario_score_149 : score scenarioRef scenarioCand = 149 := by
  have h1 : titleSimilarity scenarioRef.title scenarioCand.title = 100 := by decide
  have h2 : tagOverlap (scenarioRef.tags.getD []) scenarioCand = 2 := by decide
  have h3 : tagCount scenarioCand = 4 := by decide
  have h4 : scenarioCand.rating.getD 0 = 8 := by decide
  unfold score
  rw [h1, h2, h3, h4]
  norm_num

theorem relatedDocs_sorted (ref : Doc) (coll : List Doc) :
    List.Pairwise (fun a b => score ref b ≤ score ref a) (relatedDocs ref coll) := by
  apply List.Pairwise.sublist (List.take_sublist _ _)
  have h := @List.sorted_mergeSort Doc
    (fun a b : Doc => decide (score ref b ≤ score ref a))
    (fun a b c h₁ h₂ => by
      simp only [decide_eq_true_eq] at h₁ h₂ ⊢
      exact le_trans h₂ h₁)
    (fun a b => by
      simp only [Bool.or_eq_true, decide_eq_true_eq]
      exact le_total (score ref b) (score ref a))
    (coll.filter (fun d => d.id ≠ ref.id))
  simpa using h

theorem relatedDocs_excludes (ref : Doc) (coll : List Doc) :
    (relatedDocs ref coll).all (fun d => d.id ≠ ref.id) = true := by
  rw [List.all_eq_true]
  intro d hd
  have hmem : d ∈ (coll.filter (fun d => d.id ≠ ref.id)).mergeSort
      (fun a b => score ref b ≤ score ref a) :=
    (List.take_sublist _ _).mem hd
  have := List.mem_mergeSort.mp hmem
  have := List.of_mem_filter this
  simpa using this

theorem relatedDocs_length_le (ref : Doc) (coll : List Doc) :
    (relatedDocs ref coll).length ≤ 6 := by
  unfold relatedDocs
  exact List.length_take_le _ _

/-- C2: the final score is title component + shared-tags/total-tags * 50
(0 without tags) + rating * 3; the spec's concrete scenario scores exactly
149; the related list is sorted descending by score, excludes the reference
item's id, and has at most 6 entries. -/
theorem C2_score_and_pipeline :
    (∀ ref cand, score ref cand = specScore ref cand) ∧
      score scenarioRef scenarioCand = 149 ∧
      (∀ ref coll, List.Pairwise (fun a b => score ref b ≤ score ref a) (relatedDocs ref coll)) ∧
      (∀ ref coll, (relatedDocs ref coll).all (fun d => d.id ≠ ref.id) = true) ∧
      (∀ ref coll, (relatedDocs ref coll).length ≤ 6) :=
  ⟨score_eq_specScore, scenario_score_149, relatedDocs_sorted, relatedDocs_excludes,
    relatedDocs_length_le⟩

/-! Cache store adapter, `database.py` lines 86-131.  The Redis backing
store is abstracted by the outcome its call would have: `Except.error` for a
raised exception (connection failure, serialization failure), `Except.ok`
for a normal return.  The adapter functions return `Except Unit _` to their
caller: an `Except.error` result would model an exception propagating out of
the adapter. -/

/-- Adapter get, `database.py` `get_cache`: disabled cache or missing client
reports a miss; a store outcome of `ok` is passed through (`none` models a
miss / falsy payload, `some` a deserialized payload); a raised store error is
caught and reported as a miss. -/
def get_cache (enabled clientUp : Bool) (store : Except Unit (Option α)) :
    Except Unit (Option α) :=
  if !enabled || !clientUp then .ok none
  else
    match store with
    | .ok d => .ok d
    | .error _ => .ok none

/-- Adapter set, `database.py` `set_cache`: no-op when disabled; a raised
store/serialization error is caught and swallowed. -/
def set_cache (enabled clientUp : Bool) (store : Except Unit Unit) : Except Unit Unit :=
  if !enabled || !clientUp then .ok ()
  else
    match store with
    | .ok _ => .ok ()
    | .error _ => .ok ()

/-- Adapter delete, `database.py` `delete_cache`: same shape as `set_cache`. -/
def delete_cache (enabled clientUp : Bool) (store : Except Unit Unit) : Except Unit Unit :=
  if !enabled || !clientUp then .ok ()
  else
    match store with
    | .ok _ => .ok ()
    | .error _ => .ok ()

/-- Adapter pattern delete, `database.py` `delete_cache_pattern`: enumerates
and deletes matching keys; same error shape as `set_cache`. -/
def delete_cache_pattern (enabled clientUp : Bool) (store : Except Unit Unit) :
    Except Unit Unit :=
  if !enabled || !clientUp then .ok ()
  else
    match store with
    | .ok _ => .ok ()
    | .error _ => .ok ()

/-- C5: for every backing-store behaviour and cache-enabled setting, `get`
returns a value-or-absent and never propagates an error (disabled cache
always reports absent, a raised store error reports absent), and `set`,
`delete` and `delete_by_pattern` always return normally, so a failed cache
operation never fails the surrounding request. -/
theorem C5_adapter_never_raises :
    (∀ (enabled clientUp : Bool) (store : Except Unit (Option α)),
      get_cache enabled clientUp store =
        .ok (if enabled && clientUp then (match store with | .ok d => d | .error _ => none) else none)) ∧
      (∀ (clientUp : Bool) (store : Except Unit (Option α)),
        get_cache false clientUp store = .ok none) ∧
      (∀ (enabled clientUp : Bool) (store : Except Unit Unit),
        set_cache enabled clientUp store = .ok ()) ∧
      (∀ (enabled clientUp : Bool) (store : Except Unit Unit),
        delete_cache enabled clientUp store = .ok ()) ∧
      (∀ (enabled clientUp : Bool) (store : Except Unit Unit),
        delete_cache_pattern enabled clientUp store = .ok ()) := by
  refine ⟨?_, ?_, ?_, ?_, ?_⟩
  · intro enabled clientUp store
    cases enabled <;> cases clientUp <;> cases store <;> rfl
  · intro clientUp store
    cases clientUp <;> cases store <;> rfl
  · intro enabled clientUp store
    cases enabled <;> cases clientUp <;> cases store <;> rfl
  · intro enabled clientUp store
    cases enabled <;> cases clientUp <;> cases store <;> rfl
  · intro enabled clientUp store
    cases enabled <;> cases clientUp <;> cases store <;> rfl

/-! Cache contents and pattern purging.  A cache is an association list of
key/value pairs; `delete_cache_pattern` with a concrete Redis pattern
removes the keys the pattern matches.  Every pattern the modelled code
passes is either an exact key or a prefix followed by a final star, so the
glob semantics restricted to those shapes is: a star matches any remainder,
any other pattern character matches itself. -/

/-- Redis KEYS pattern match for the pattern shapes this codebase uses
(literal characters with an optional final star): a star matches any
remainder of the key, any other pattern character matches itself. -/
def patMatch : Str → Str → Bool
  | [], k => k.isEmpty
  | p :: ps, k =>
    if p = '*' then true
    else
      match k with
      | [] => false
      | c :: ks => p = c && patMatch ps ks

/-- Purge of a single pattern from a cache (the keys-then-delete loop of
`delete_cache_pattern`). -/
def purgeOne (pat : Str) (cache : List (Str × α)) : List (Str × α) :=
  cache.filter (fun kv => !patMatch pat kv.1)

/-- Sequential purge of a list of patterns, as controllers do when they loop
over their pattern lists. -/
def purgeMany (pats : List Str) (cache : List (Str × α)) : List (Str × α) :=
  pats.foldl (fun c p => purgeOne p c) cache

theorem mem_purgeOne {pat : Str} {cache : List (Str × α)} {kv : Str × α} :
    kv ∈ purgeOne pat cache ↔ kv ∈ cache ∧ patMatch pat kv.1 = false := by
  simp [purgeOne, List.mem_filter]

theorem mem_purgeMany {pats : List Str} {cache : List (Str × α)} {kv : Str × α} :
    kv ∈ purgeMany pats cache ↔ kv ∈ cache ∧ ∀ p ∈ pats, patMatch p kv.1 = false := by
  induction pats generalizing cache with
  | nil => simp [purgeMany]
  | cons p ps ih =>
    simp only [purgeMany, List.foldl_cons] at *
    rw [ih]
    simp only [mem_purgeOne]
    constructor
    · rintro ⟨⟨hm, hp⟩, hall⟩
      refine ⟨hm, ?_⟩
      intro q hq
      rcases List.mem_cons.mp hq with rfl | hq
      · exact hp
      · exact hall q hq
    · rintro ⟨hm, hall⟩
      exact ⟨⟨hm, hall p (List.mem_cons_self p ps)⟩, fun q hq => hall q (List.mem_cons.mpr (Or.inr hq))⟩

/-! Background cache sweeper, `main.py` `clear_comment_caches` lines 36-52. -/

/-- Comment cache TTL, `config.py` line 16 (default value). -/
def COMMENT_CACHE_TTL : ℕ := 60

/-- The four comment cache-key families swept on every iteration. -/
def sweepPatterns : List Str :=
  ["comments:*".data, "comment:*".data, "comment_tree:*".data, "user_comments:*".data]

/-- One sweeper iteration.  A fault of `none` is a clean sweep; a fault of
`some i` models the backing store raising when the iteration has purged only
the first `i` patterns — the except-clause catches it and the loop body
completes.  The second component is the duration of the sleep that follows,
which runs in both cases (it sits outside the try/except). -/
def sweepIteration (fault : Option ℕ) (cache : List (Str × α)) : List (Str × α) × ℕ :=
  (match fault with
   | none => purgeMany sweepPatterns cache
   | some i => purgeMany (sweepPatterns.take i) cache,
   COMMENT_CACHE_TTL + 30)

/-- The sweeper loop run over a schedule of per-iteration faults: every entry
in the schedule leads to one completed iteration, faulty or not. -/
def sweeperRun (faults : List (Option ℕ)) (cache : List (Str × α)) : List (Str × α) :=
  faults.foldl (fun c f => (sweepIteration f c).1) cache

/-- C6: a fault-free sweeper iteration leaves no key matching any of the four
comment families; the sleep after every iteration (faulty or not) is the
comment TTL plus a 30-second margin; and a faulty iteration never terminates
the loop — the run over `fault :: rest` always proceeds with `rest`. -/
theorem C6_sweeper :
    (∀ (cache : List (Str × α)),
      ((sweepIteration none cache).1.all
        (fun kv => sweepPatterns.all (fun p => !patMatch p kv.1))) = true) ∧
      (∀ (fault : Option ℕ) (cache : List (Str × α)),
        (sweepIteration fault cache).2 = COMMENT_CACHE_TTL + 30) ∧
      (∀ (fault : Option ℕ) (rest : List (Option ℕ)) (cache : List (Str × α)),
        sweeperRun (fault :: rest) cache = sweeperRun rest (sweepIteration fault cache).1) := by
  refine ⟨?_, ?_, ?_⟩
  · intro cache
    rw [List.all_eq_true]
    intro kv hkv
    rw [List.all_eq_true]
    intro p hp
    have := (mem_purgeMany.mp hkv).2 p hp
    simp [this]
  · intro fault cache
    rfl
  · intro fault rest cache
    rfl

/-! Error detail construction of the controllers.  On an internal error
(document store unreachable, driver exception, any unexpected exception)
`get_all_movies` (`movie_controller.py` lines 77-79) and `create_comment`
(`comment_controller.py` lines 162-167) raise an HTTP 500 whose detail
message is the text of the caught exception. -/

structure ErrorDetail where
  status : ℕ
  success : Bool
  message : Str
deriving DecidableEq

/-- Detail of the HTTP 500 raised by `get_all_movies` for a caught internal
exception with text `e`. -/
def getAllMoviesErrorDetail (e : Str) : ErrorDetail :=
  { status := 500, success := false, message := e }

/-- Detail of the HTTP 500 raised by `create_comment` for a caught internal
exception with text `e`. -/
def createCommentErrorDetail (e : Str) : ErrorDetail :=
  { status := 500, success := false, message := e }

/-- C7: the code violates the claim.  A driver exception whose text carries
the backing-store connection string is copied verbatim into the user-facing
message of both cited operations, so the message does contain backing-store
internals. -/
theorem C7_message_leaks_internals :
    (getAllMoviesErrorDetail
        "mongodb://localhost:27017: connection refused".data).message =
      "mongodb://localhost:27017: connection refused".data ∧
      containsSub (getAllMoviesErrorDetail
        "mongodb://localhost:27017: connection refused".data).message "mongodb://".data = true ∧
      (∀ e : Str, (getAllMoviesErrorDetail e).message = e) ∧
      (∀ e : Str, (createCommentErrorDetail e).message = e) :=
  ⟨rfl, by decide, fun _ => rfl, fun _ => rfl⟩


/-! String lemmas about the pattern matcher, needed to reason about which
keys a pattern purge can and cannot hit. -/

theorem patMatch_append_star (pre : Str) (h : '*' ∉ pre) (k : Str) :
    patMatch (pre ++ ['*']) k = pre.isPrefixOf k := by
  induction pre generalizing k with
  | nil => simp [patMatch, List.isPrefixOf]
  | cons p ps ih =>
    have hp : p ≠ '*' := fun hc => h (hc ▸ List.mem_cons_self p ps)
    have hps : '*' ∉ ps := fun hc => h (List.mem_cons_of_mem p hc)
    cases k with
    | nil => simp [patMatch, List.isPrefixOf, hp]
    | cons c ks =>
      simp only [List.cons_append, patMatch, hp, if_false, List.isPrefixOf, ih hps]
      cases hpc : (p == c)
      · simp_all
      · simp_all

theorem patMatch_no_star (pat : Str) (h : '*' ∉ pat) (k : Str) :
    patMatch pat k = true ↔ pat = k := by
  induction pat generalizing k with
  | nil => cases k <;> simp [patMatch]
  | cons p ps ih =>
    have hp : p ≠ '*' := fun hc => h (hc ▸ List.mem_cons_self p ps)
    have hps : '*' ∉ ps := fun hc => h (List.mem_cons_of_mem p hc)
    cases k with
    | nil => simp [patMatch, hp]
    | cons c ks => simp [patMatch, hp, ih hps, List.cons.injEq]

theorem colon_prefix_eq {a b rest : Str} (ha : ':' ∉ a) (hb : ':' ∉ b)
    (h : (a ++ [':']) <+: (b ++ ':' :: rest)) : a = b := by
  induction a generalizing b with
  | nil =>
    cases b with
    | nil => rfl
    | cons d ds =>
      obtain ⟨t, ht⟩ := h
      simp only [List.nil_append, List.cons_append] at ht
      have : ':' = d := (List.cons.injEq .. ▸ ht : _ ∧ _).1
      exact absurd this.symm (fun hc => hb (hc ▸ List.mem_cons_self d ds))
  | cons c cs ih =>
    cases b with
    | nil =>
      obtain ⟨t, ht⟩ := h
      simp only [List.cons_append, List.nil_append] at ht
      have : c = ':' := (List.cons.injEq .. ▸ ht : _ ∧ _).1
      exact absurd this (fun hc => ha (hc ▸ List.mem_cons_self c cs))
    | cons d ds =>
      obtain ⟨t, ht⟩ := h
      simp only [List.cons_append] at ht
      have h1 : c = d := (List.cons.injEq .. ▸ ht : _ ∧ _).1
      have h2 : cs ++ [':'] ++ t = ds ++ ':' :: rest := by
        have := (List.cons.injEq .. ▸ ht : _ ∧ _).2
        simpa [List.append_assoc] using this
      have ha' : ':' ∉ cs := fun hc => ha (List.mem_cons_of_mem c hc)
      have hb' : ':' ∉ ds := fun hc => hb (List.mem_cons_of_mem d hc)
      have : cs = ds := ih ha' hb' ⟨t, h2⟩
      rw [h1, this]

theorem colon_split_eq {a b x y : Str} (ha : ':' ∉ a) (hb : ':' ∉ b)
    (h : a ++ ':' :: x = b ++ ':' :: y) : a = b ∧ x = y := by
  have hab : a = b := colon_prefix_eq ha hb ⟨x, by simpa [List.append_assoc] using h⟩
  subst hab
  exact ⟨rfl, by simpa using h⟩

theorem star_not_mem_append {a b : Str} (ha : '*' ∉ a) (hb : '*' ∉ b) :
    '*' ∉ a ++ b := by
  intro hc
  rcases List.mem_append.mp hc with h | h
  · exact ha h
  · exact hb h

/-! Invalidation performed by `create_comment`
(`comment_controller.py` lines 141-156). -/

/-- Cache-key patterns purged after a successful comment creation: always the
content's comment-list family; for a reply additionally the parent comment's
single-item key and tree key. -/
def createCommentPatterns (ctype cid : Str) (parent : Option Str) : List Str :=
  ["comments:".data ++ ctype ++ ":".data ++ cid ++ ":*".data]
    ++ (match parent with
        | some p => ["comment:".data ++ p, "comment_tree:".data ++ p]
        | none => [])

/-- The cache after `create_comment`'s invalidation loop. -/
def createCommentInvalidate (ctype cid : Str) (parent : Option Str)
    (cache : List (Str × α)) : List (Str × α) :=
  purgeMany (createCommentPatterns ctype cid parent) cache

theorem createCommentPatterns_reply (M C : Str) :
    createCommentPatterns "movie".data M (some C) =
      ["comments:movie:".data ++ M ++ ":*".data,
        "comment:".data ++ C, "comment_tree:".data ++ C] := by
  simp [createCommentPatterns]

/-- Keys that survive a purge are exactly the cached keys no purged pattern
matches. -/
theorem createCommentInvalidate_mem {ctype cid : Str} {parent : Option Str}
    {cache : List (Str × α)} {kv : Str × α} :
    kv ∈ createCommentInvalidate ctype cid parent cache ↔
      kv ∈ cache ∧ ∀ p ∈ createCommentPatterns ctype cid parent, patMatch p kv.1 = false :=
  mem_purgeMany

theorem listPattern_eq_pre_star (M : Str) :
    "comments:movie:".data ++ M ++ ":*".data =
      ("comments:movie:".data ++ M ++ [':']) ++ ['*'] := by
  simp [List.append_assoc]

/-- C4: creating a reply to comment C under content (movie, M) purges exactly
the three cited patterns; afterwards no cached key matching any of them
remains; and every key of an unrelated content id M' (comment-list keys of
M') and of an unrelated comment C' (single-comment and tree keys) survives.
Ids are hex ObjectId strings, hence contain neither a colon nor a star. -/
theorem C4_reply_invalidation (M C M' C' rest : Str) (v : α)
    (cache : List (Str × α))
    (hM : ':' ∉ M) (hM' : ':' ∉ M') (hMstar : '*' ∉ M) (hMM : M' ≠ M)
    (hCstar : '*' ∉ C) (hCC : C' ≠ C) :
    createCommentPatterns "movie".data M (some C) =
        ["comments:movie:".data ++ M ++ ":*".data,
          "comment:".data ++ C, "comment_tree:".data ++ C] ∧
      ((createCommentInvalidate "movie".data M (some C) cache).all
        (fun kv => (createCommentPatterns "movie".data M (some C)).all
          (fun p => !patMatch p kv.1))) = true ∧
      (("comments:movie:".data ++ M' ++ ":".data ++ rest, v) ∈ cache →
        ("comments:movie:".data ++ M' ++ ":".data ++ rest, v) ∈
          createCommentInvalidate "movie".data M (some C) cache) ∧
      (("comment:".data ++ C', v) ∈ cache →
        ("comment:".data ++ C', v) ∈
          createCommentInvalidate "movie".data M (some C) cache) ∧
      (("comment_tree:".data ++ C', v) ∈ cache →
        ("comment_tree:".data ++ C', v) ∈
          createCommentInvalidate "movie".data M (some C) cache) := by
  have hpreStar : '*' ∉ "comments:movie:".data ++ M ++ [':'] := by
    apply star_not_mem_append
    apply star_not_mem_append
    · decide
    · exact hMstar
    · decide
  have hstarM : ∀ k, patMatch ("comments:movie:".data ++ M ++ ":*".data) k =
      ("comments:movie:".data ++ M ++ [':']).isPrefixOf k := by
    intro k
    rw [listPattern_eq_pre_star, patMatch_append_star _ hpreStar]
  have hP2 : '*' ∉ "comment:".data ++ C :=
    star_not_mem_append (by decide) hCstar
  have hP3 : '*' ∉ "comment_tree:".data ++ C :=
    star_not_mem_append (by decide) hCstar
  refine ⟨createCommentPatterns_reply M C, ?_, ?_, ?_, ?_⟩
  · rw [List.all_eq_true]
    intro kv hkv
    rw [List.all_eq_true]
    intro p hp
    have := (createCommentInvalidate_mem.mp hkv).2 p hp
    simp [this]
  · intro hmem
    rw [createCommentInvalidate_mem, createCommentPatterns_reply]
    refine ⟨hmem, ?_⟩
    intro p hp
    rcases List.mem_cons.mp hp with rfl | hp
    · rw [hstarM, Bool.eq_false_iff]
      intro hpre
      have hpre2 := List.isPrefixOf_iff_prefix.mp hpre
      have hpre3 : ("comments:movie:".data ++ (M ++ [':'])) <+:
          ("comments:movie:".data ++ (M' ++ ':' :: rest)) := by
        simpa [List.append_assoc] using hpre2
      exact hMM (colon_prefix_eq hM hM'
        ((List.prefix_append_right_inj _).mp hpre3)).symm
    rcases List.mem_cons.mp hp with rfl | hp
    · rw [Bool.eq_false_iff]
      intro hmatch
      have heq := (patMatch_no_star _ hP2 _).mp hmatch
      simp [List.cons_append, List.append_assoc] at heq
    rcases List.mem_cons.mp hp with rfl | hp
    · rw [Bool.eq_false_iff]
      intro hmatch
      have heq := (patMatch_no_star _ hP3 _).mp hmatch
      simp [List.cons_append, List.append_assoc] at heq
    · exact absurd hp (List.not_mem_nil p)
  · intro hmem
    rw [createCommentInvalidate_mem, createCommentPatterns_reply]
    refine ⟨hmem, ?_⟩
    intro p hp
    rcases List.mem_cons.mp hp with rfl | hp
    · rw [hstarM, Bool.eq_false_iff]
      intro hpre
      have hpre2 := List.isPrefixOf_iff_prefix.mp hpre
      simp [List.cons_append, List.append_assoc, List.prefix_cons_iff] at hpre2
    rcases List.mem_cons.mp hp with rfl | hp
    · rw [Bool.eq_false_iff]
      intro hmatch
      have heq := (patMatch_no_star _ hP2 _).mp hmatch
      have : C = C' := List.append_cancel_left heq
      exact hCC this.symm
    rcases List.mem_cons.mp hp with rfl | hp
    · rw [Bool.eq_false_iff]
      intro hmatch
      have heq := (patMatch_no_star _ hP3 _).mp hmatch
      simp [List.cons_append, List.append_assoc] at heq
    · exact absurd hp (List.not_mem_nil p)
  · intro hmem
    rw [createCommentInvalidate_mem, createCommentPatterns_reply]
    refine ⟨hmem, ?_⟩
    intro p hp
    rcases List.mem_cons.mp hp with rfl | hp
    · rw [hstarM, Bool.eq_false_iff]
      intro hpre
      have hpre2 := List.isPrefixOf_iff_prefix.mp hpre
      simp [List.cons_append, List.append_assoc, List.prefix_cons_iff] at hpre2
    rcases List.mem_cons.mp hp with rfl | hp
    · rw [Bool.eq_false_iff]
      intro hmatch
      have heq := (patMatch_no_star _ hP2 _).mp hmatch
      simp [List.cons_append, List.append_assoc] at heq
    rcases List.mem_cons.mp hp with rfl | hp
    · rw [Bool.eq_false_iff]
      intro hmatch
      have heq := (patMatch_no_star _ hP3 _).mp hmatch
      have : C = C' := List.append_cancel_left heq
      exact hCC this.symm
    · exact absurd hp (List.not_mem_nil p)

/-- C4, witness at concrete ids: the two tree/item keys of the parent
comment and the list family of movie M are purged patterns, and concretely
cached keys of another movie and another comment survive. -/
theorem C4_reply_invalidation_witness :
    let M := "aaaaaaaaaaaaaaaaaaaaaaaa".data
    let C := "bbbbbbbbbbbbbbbbbbbbbbbb".data
    let M' := "cccccccccccccccccccccccc".data
    let C' := "dddddddddddddddddddddddd".data
    let cache : List (Str × ℕ) :=
      [("comments:movie:".data ++ M' ++ ":".data ++ "None:50:0".data, 1),
        ("comment:".data ++ C', 2), ("comment_tree:".data ++ C', 3)]
    ("comments:movie:".data ++ M' ++ ":".data ++ "None:50:0".data, 1) ∈
        createCommentInvalidate "movie".data M (some C) cache ∧
      ("comment:".data ++ C', 2) ∈
        createCommentInvalidate "movie".data M (some C) cache ∧
      ("comment_tree:".data ++ C', 3) ∈
        createCommentInvalidate "movie".data M (some C) cache := by
  intro M C M' C' cache
  have h := C4_reply_invalidation (α := ℕ) M C M' C' "None:50:0".data 1 cache
    (by decide) (by decide) (by decide) (by decide) (by decide) (by decide)
  refine ⟨h.2.2.1 (by simp [cache]), ?_, ?_⟩
  · have h2 := C4_reply_invalidation (α := ℕ) M C M' C' "None:50:0".data 2 cache
      (by decide) (by decide) (by decide) (by decide) (by decide) (by decide)
    exact h2.2.2.2.1 (by simp [cache])
  · have h3 := C4_reply_invalidation (α := ℕ) M C M' C' "None:50:0".data 3 cache
      (by decide) (by decide) (by decide) (by decide) (by decide) (by decide)
    exact h3.2.2.2.2 (by simp [cache])

/-! Detail view `get_movie_by_id` (`movie_controller.py` lines 119-294),
restricted to its cache behaviour.  The document store is a list of `Doc`
(the movies collection) plus a watch-status oracle
(user id, movie id) → optional watch record; the cache is an association
list keyed by strings; the function also returns the trace of cache
operations it performed. -/

/-- Validity check of `bson.ObjectId.is_valid`: 24 hex characters. -/
def isValidObjectId (mid : Str) : Bool :=
  mid.length = 24 && mid.all (fun c =>
    c.isDigit || ('a' ≤ c && c ≤ 'f') || ('A' ≤ c && c ≤ 'F'))

/-- Watch-status record merged into a personalized detail response. -/
structure WatchRec where
  progress : ℚ
  completed : Bool
deriving DecidableEq

/-- Detail-view response envelope: success flag, the movie document, the
related list, and the user-specific watch status (absent on the anonymous
path). -/
structure MovieResp where
  success : Bool
  data : Doc
  related : List Doc
  watchStatus : Option WatchRec
deriving DecidableEq

/-- Trace entry of one cache operation performed by a read handler. -/
inductive CacheOp where
  | read (key : Str)
  | write (key : Str)
deriving DecidableEq

/-- Key an operation touched. -/
def CacheOp.key : CacheOp → Str
  | .read k => k
  | .write k => k

/-- Whether an operation is a cache write. -/
def CacheOp.isWrite : CacheOp → Bool
  | .read _ => false
  | .write _ => true

/-- The shared detail-view cache key: resource kind and content id only. -/
def detailKey (mid : Str) : Str := "movies:detail:".data ++ mid

/-- Base (anonymous) detail response for a found movie: built from the
collection alone, watch status empty.  This is the payload the anonymous
path caches; it takes no user input. -/
def mkDetailBase (coll : List Doc) (m : Doc) : MovieResp :=
  { success := true, data := m, related := relatedDocs m coll, watchStatus := none }

/-- Cache behaviour of `get_movie_by_id`: validate the id; read the shared
detail key; return the cached payload only for anonymous callers; otherwise
query the store, build the base response, and either merge the live watch
status (user supplied — no cache write) or write the base response back
(anonymous). Result: (response or HTTP error, final cache, operation
trace). -/
def getMovieById (coll : List Doc) (watch : Str → Str → Option WatchRec)
    (cache : List (Str × MovieResp)) (mid : Str) (uid : Option Str) :
    Except ℕ MovieResp × List (Str × MovieResp) × List CacheOp :=
  if isValidObjectId mid then
    let key := detailKey mid
    let cached := (cache.find? (fun kv => kv.1 = key)).map (fun kv => kv.2)
    match cached, uid with
    | some r, none => (.ok r, cache, [CacheOp.read key])
    | _, _ =>
      match coll.find? (fun d => d.id = mid) with
      | none => (.error 404, cache, [CacheOp.read key])
      | some m =>
        let base := mkDetailBase coll m
        match uid with
        | some u => (.ok { base with watchStatus := watch u mid }, cache, [CacheOp.read key])
        | none => (.ok base, (key, base) :: cache, [CacheOp.read key, CacheOp.write key])
  else (.error 400, cache, [])

/-- C3: the detail cache key is a function of the content id alone; every
cache operation of any request (anonymous or authenticated) touches only
that shared key; a request with a user identity never changes the cache (its
merged response is not written); and the anonymous path stores, if anything,
exactly the base response — computed without any user input, with empty
watch status — under the shared key. -/
theorem C3_detail_cache_isolation :
    (∀ (coll : List Doc) (watch : Str → Str → Option WatchRec)
      (cache : List (Str × MovieResp)) (mid u : Str),
      (getMovieById coll watch cache mid (some u)).2.1 = cache) ∧
      (∀ (coll : List Doc) (watch : Str → Str → Option WatchRec)
        (cache : List (Str × MovieResp)) (mid : Str) (uid : Option Str),
        ((getMovieById coll watch cache mid uid).2.2.all
          (fun op => decide (CacheOp.key op = detailKey mid))) = true) ∧
      (∀ (coll : List Doc) (watch : Str → Str → Option WatchRec)
        (cache : List (Str × MovieResp)) (mid u : Str),
        ((getMovieById coll watch cache mid (some u)).2.2.filter CacheOp.isWrite) = []) ∧
      (∀ (coll : List Doc) (watch : Str → Str → Option WatchRec)
        (cache : List (Str × MovieResp)) (mid : Str),
        (getMovieById coll watch cache mid none).2.1 = cache ∨
          ∃ m, coll.find? (fun d => d.id = mid) = some m ∧
            (getMovieById coll watch cache mid none).2.1 =
              (detailKey mid, mkDetailBase coll m) :: cache ∧
            (mkDetailBase coll m).watchStatus = none) := by
  refine ⟨?_, ?_, ?_, ?_⟩
  · intro coll watch cache mid u
    unfold getMovieById
    by_cases hv : isValidObjectId mid
    · simp only [hv, if_true]
      cases hc : (cache.find? (fun kv => kv.1 = detailKey mid)).map (fun kv => kv.2) with
      | none =>
        simp only [hc]
        cases hf : coll.find? (fun d => d.id = mid) <;> simp [hf]
      | some r =>
        simp only [hc]
        cases hf : coll.find? (fun d => d.id = mid) <;> simp [hf]
    · simp [hv]
  · intro coll watch cache mid uid
    unfold getMovieById
    by_cases hv : isValidObjectId mid
    · simp only [hv, if_true]
      cases hc : (cache.find? (fun kv => kv.1 = detailKey mid)).map (fun kv => kv.2) with
      | none =>
        cases uid with
        | none =>
          simp only [hc]
          cases hf : coll.find? (fun d => d.id = mid) <;> simp [hf, CacheOp.key]
        | some u =>
          simp only [hc]
          cases hf : coll.find? (fun d => d.id = mid) <;> simp [hf, CacheOp.key]
      | some r =>
        cases uid with
        | none => simp [hc, CacheOp.key]
        | some u =>
          simp only [hc]
          cases hf : coll.find? (fun d => d.id = mid) <;> simp [hf, CacheOp.key]
    · simp [hv]
  · intro coll watch cache mid u
    unfold getMovieById
    by_cases hv : isValidObjectId mid
    · simp only [hv, if_true]
      cases hc : (cache.find? (fun kv => kv.1 = detailKey mid)).map (fun kv => kv.2) with
      | none =>
        simp only [hc]
        cases hf : coll.find? (fun d => d.id = mid) <;> simp [hf, CacheOp.isWrite]
      | some r =>
        simp only [hc]
        cases hf : coll.find? (fun d => d.id = mid) <;> simp [hf, CacheOp.isWrite]
    · simp [hv]
  · intro coll watch cache mid
    unfold getMovieById
    by_cases hv : isValidObjectId mid
    · simp only [hv, if_true]
      cases hc : (cache.find? (fun kv => kv.1 = detailKey mid)).map (fun kv => kv.2) with
      | none =>
        cases hf : coll.find? (fun d => d.id = mid) with
        | none => simp [hc, hf]
        | some m =>
          right
          exact ⟨m, rfl, rfl, rfl⟩
      | some r => simp [hc]
    · simp [hv]

/-! Comment deletion (`comment_controller.py`: `delete_comment` lines
370-434 and `delete_comment_recursively` lines 436-464).  A stored comment
together with its materialized descendants is a finitely branching tree
(the document's `replies` array holds the ids of its children).  The only
fallible store operation that matters to the claim is the per-comment
`delete_one`, modelled by a fault oracle on comment ids: a faulted id's
deletion raises, the function's except-clause catches it at that node and
returns `False` instead of propagating, and the node stays undeleted while
its already-processed descendants stay deleted. -/

/-- Comment document with its materialized reply subtree. -/
inductive CTree where
  | node (id userId : Str) (children : List CTree)

/-- Root comment id. -/
def CTree.rootId : CTree → Str
  | .node i _ _ => i

/-- Root comment author. -/
def CTree.rootUser : CTree → Str
  | .node _ u _ => u

mutual

/-- Ids of a tree in the order `delete_comment_recursively` deletes them:
children first, then the node itself. -/
def postorder : CTree → List Str
  | .node i _ cs => postorderList cs ++ [i]

/-- Postorder ids of a forest. -/
def postorderList : List CTree → List Str
  | [] => []
  | t :: ts => postorder t ++ postorderList ts

end

mutual

/-- Embedding of `delete_comment_recursively`: recurse into every reply,
then delete the node itself; a raised deletion error for the node is caught
by its own except-clause, which returns `False` (second component: the ids
actually deleted).  Return values of recursive calls are ignored, exactly as
in the code. -/
def delete_comment_recursively (fault : Str → Bool) : CTree → Bool × List Str
  | .node i _ cs =>
    let d := deleteForest fault cs
    if fault i then (false, d) else (true, d ++ [i])

/-- Deletion pass over a list of reply subtrees. -/
def deleteForest (fault : Str → Bool) : List CTree → List Str
  | [] => []
  | t :: ts => (delete_comment_recursively fault t).2 ++ deleteForest fault ts

end

/-- Embedding of `delete_comment` after the comment has been found: check
ownership (owner or admin), run the recursive deletion — whose boolean result
the code never inspects — and report the success message.  Result: the HTTP
outcome together with the ids that were really deleted. -/
def delete_comment (fault : Str → Bool) (t : CTree) (curUserId curRole : Str) :
    Except ℕ (Str × List Str) :=
  if t.rootUser ≠ curUserId ∧ curRole ≠ "admin".data then .error 403
  else
    let r := delete_comment_recursively fault t
    .ok ("Comment deleted successfully".data, r.2)

mutual

theorem delete_comment_recursively_deleted (fault : Str → Bool) :
    ∀ t : CTree, (delete_comment_recursively fault t).2 =
      (postorder t).filter (fun i => !fault i)
  | .node i u cs => by
    rw [delete_comment_recursively, postorder, List.filter_append,
      deleteForest_deleted fault cs]
    cases h : fault i <;> simp [h]

theorem deleteForest_deleted (fault : Str → Bool) :
    ∀ ts : List CTree, deleteForest fault ts =
      (postorderList ts).filter (fun i => !fault i)
  | [] => by simp [deleteForest, postorderList]
  | t :: ts => by
    rw [deleteForest, postorderList, List.filter_append,
      delete_comment_recursively_deleted fault t, deleteForest_deleted fault ts]

end

/-- C9: for every comment tree, every fault oracle and every authorized
caller (owner or admin), `delete_comment` reports the success message — the
recursive cascade catches every deletion error internally and its boolean
result is ignored — while the ids actually deleted are exactly the
non-faulted ones, so a faulted descendant silently survives. -/
theorem C9_delete_reports_success (fault : Str → Bool) (t : CTree)
    (curUserId curRole : Str)
    (hauth : t.rootUser = curUserId ∨ curRole = "admin".data) :
    delete_comment fault t curUserId curRole =
      .ok ("Comment deleted successfully".data,
        (postorder t).filter (fun i => !fault i)) := by
  have hcond : ¬(t.rootUser ≠ curUserId ∧ curRole ≠ "admin".data) := by
    rcases hauth with h | h
    · intro hc; exact hc.1 h
    · intro hc; exact hc.2 h
  unfold delete_comment
  rw [if_neg hcond]
  simp only [delete_comment_recursively_deleted]

/-- C9, witness: a two-comment tree where deleting the reply faults.  The
top-level call still answers the success message, and only the root was
really deleted — the faulted reply survives undetected. -/
theorem C9_delete_reports_success_witness :
    delete_comment (fun i => i = "c2".data)
        (.node "c1".data "u1".data [.node "c2".data "u2".data []])
        "u1".data "user".data =
      .ok ("Comment deleted successfully".data, ["c1".data]) := by
  have h := C9_delete_reports_success (fun i => i = "c2".data)
    (.node "c1".data "u1".data [.node "c2".data "u2".data []])
    "u1".data "user".data (Or.inl rfl)
  rw [h]
  rfl

/-! Cache-key construction (`movie_controller.py` line 18 for the movie list
family, `routes/comments.py` lines 47-52 for the comment list family) and
the query it stands for. -/

/-- Decimal digit character. -/
def digitChar (d : ℕ) : Char :=
  if d = 0 then '0' else if d = 1 then '1' else if d = 2 then '2'
  else if d = 3 then '3' else if d = 4 then '4' else if d = 5 then '5'
  else if d = 6 then '6' else if d = 7 then '7' else if d = 8 then '8' else '9'

/-- Value of a decimal digit character (inverse of `digitChar` on 0-9). -/
def digitVal (c : Char) : ℕ :=
  if c = '0' then 0 else if c = '1' then 1 else if c = '2' then 2
  else if c = '3' then 3 else if c = '4' then 4 else if c = '5' then 5
  else if c = '6' then 6 else if c = '7' then 7 else if c = '8' then 8 else 9

/-- Fuel-driven big-endian decimal rendering of a positive natural. -/
def natToCharsAux : ℕ → ℕ → Str
  | 0, _ => []
  | fuel + 1, n =>
    if n = 0 then [] else natToCharsAux fuel (n / 10) ++ [digitChar (n % 10)]

/-- Python `str(n)` for a nonnegative int, as interpolated into f-string
cache keys. -/
def natToChars (n : ℕ) : Str :=
  if n = 0 then ['0'] else natToCharsAux n n

/-- Big-endian decimal decoding, used to invert `natToChars`. -/
def decodeDecimal (s : Str) : ℕ :=
  s.foldl (fun acc c => acc * 10 + digitVal c) 0

theorem digitVal_digitChar {d : ℕ} (h : d < 10) : digitVal (digitChar d) = d := by
  interval_cases d <;> decide

theorem decodeDecimal_append_digit (l : Str) (c : Char) :
    decodeDecimal (l ++ [c]) = decodeDecimal l * 10 + digitVal c := by
  simp [decodeDecimal, List.foldl_append]

theorem decodeDecimal_natToCharsAux :
    ∀ (fuel n : ℕ), n ≤ fuel → decodeDecimal (natToCharsAux fuel n) = n := by
  intro fuel
  induction fuel with
  | zero =>
    intro n hn
    interval_cases n
    rfl
  | succ fuel ih =>
    intro n hn
    by_cases h0 : n = 0
    · simp [natToCharsAux, h0, decodeDecimal]
    · rw [natToCharsAux, if_neg h0, decodeDecimal_append_digit,
        ih (n / 10) (by
          have : n / 10 < n := Nat.div_lt_self (Nat.pos_of_ne_zero h0) (by norm_num)
          omega),
        digitVal_digitChar (Nat.mod_lt n (by norm_num))]
      omega

theorem decodeDecimal_natToChars (n : ℕ) : decodeDecimal (natToChars n) = n := by
  by_cases h : n = 0
  · simp [natToChars, h, decodeDecimal, digitVal]
  · rw [natToChars, if_neg h]
    exact decodeDecimal_natToCharsAux n n le_rfl

theorem natToChars_inj {n m : ℕ} (h : natToChars n = natToChars m) : n = m := by
  have := congrArg decodeDecimal h
  rwa [decodeDecimal_natToChars, decodeDecimal_natToChars] at this

theorem digitChar_ne_colon (d : ℕ) : digitChar d ≠ ':' := by
  unfold digitChar
  split_ifs <;> decide

theorem colon_not_mem_natToCharsAux : ∀ (fuel n : ℕ), ':' ∉ natToCharsAux fuel n := by
  intro fuel
  induction fuel with
  | zero => intro n hc; exact absurd hc (List.not_mem_nil _)
  | succ fuel ih =>
    intro n hc
    rw [natToCharsAux] at hc
    by_cases h0 : n = 0
    · rw [if_pos h0] at hc; exact absurd hc (List.not_mem_nil _)
    · rw [if_neg h0] at hc
      rcases List.mem_append.mp hc with h | h
      · exact ih _ h
      · rcases List.mem_singleton.mp h with h
        exact digitChar_ne_colon _ h.symm

theorem colon_not_mem_natToChars (n : ℕ) : ':' ∉ natToChars n := by
  unfold natToChars
  split_ifs
  · decide
  · exact colon_not_mem_natToCharsAux n n

/-- Python `x or default` on an optional string: `None` and the empty string
are falsy and give the default. -/
def pyOr (v : Option Str) (dflt : Str) : Str :=
  match v with
  | some s => if s = [] then dflt else s
  | none => dflt

/-- Movie list cache key, `movie_controller.py` line 18:
`movies:list:{tag or 'all'}:{search or 'none'}:{page}:{limit}`. -/
def movieListKey (tag srch : Option Str) (page limit : ℕ) : Str :=
  "movies:list:".data
    ++ (pyOr tag "all".data
      ++ ':' :: (pyOr srch "none".data
        ++ ':' :: (natToChars page ++ ':' :: natToChars limit)))

/-- Mongo query that `get_all_movies` builds: the tag filter and search
filter are only applied when the parameter is truthy. -/
structure MovieQuery where
  tagFilter : Option Str
  searchFilter : Option Str
deriving DecidableEq

/-- Truthiness filter of `if tag:` / `if search:`. -/
def truthy (v : Option Str) : Option Str :=
  match v with
  | some s => if s = [] then none else some s
  | none => none

/-- Query state `get_all_movies` actually executes against the store. -/
def buildMovieQuery (tag srch : Option Str) : MovieQuery :=
  { tagFilter := truthy tag, searchFilter := truthy srch }

/-- Comment list cache key, `routes/comments.py` line 49:
`comments:{content_type}:{content_id}:{parent_id}:{limit}:{skip}` — an
absent `parent_id` is rendered by the f-string as the literal token
`None`. -/
def commentsListKey (ctype cid : Str) (parent : Option Str) (limit skip : ℕ) : Str :=
  "comments:".data
    ++ (ctype
      ++ ':' :: (cid
        ++ ':' :: ((match parent with | none => "None".data | some p => p)
          ++ ':' :: (natToChars limit ++ ':' :: natToChars skip))))

/-- C8, counterexample.  A supplied tag equal to the placeholder token
"all" produces the same cache key as an absent tag, while the two request
states are semantically different: the supplied tag filters the query, the
absent one does not.  The construction is therefore not injective on
semantic request states. -/
theorem C8_counterexample :
    movieListKey (some "all".data) none 1 20 = movieListKey none none 1 20 ∧
      buildMovieQuery (some "all".data) none ≠ buildMovieQuery none none := by
  constructor
  · rfl
  · decide

/-- Supplied-parameter side condition under which the key construction can
be injective: a supplied value is truthy (nonempty), distinct from the
absent-placeholder token, and — as all real tags/search terms here — free of
the colon separator. -/
def goodParam : Option Str → Str → Prop
  | none, _ => True
  | some v, ph => v ≠ [] ∧ v ≠ ph ∧ ':' ∉ v

theorem pyOr_colon_free {v : Option Str} {ph : Str} (hph : ':' ∉ ph)
    (h : goodParam v ph) : ':' ∉ pyOr v ph := by
  cases v with
  | none => exact hph
  | some x =>
    obtain ⟨hx, -, hcol⟩ := h
    simpa [pyOr, hx] using hcol

theorem pyOr_inj {v v' : Option Str} {ph : Str}
    (h : goodParam v ph) (h' : goodParam v' ph) (heq : pyOr v ph = pyOr v' ph) :
    v = v' := by
  cases v with
  | none =>
    cases v' with
    | none => rfl
    | some x =>
      obtain ⟨hx, hne, -⟩ := h'
      rw [pyOr, pyOr, if_neg hx] at heq
      exact absurd heq.symm hne
  | some x =>
    cases v' with
    | none =>
      obtain ⟨hx, hne, -⟩ := h
      rw [pyOr, pyOr, if_neg hx] at heq
      exact absurd heq hne
    | some x' =>
      obtain ⟨hx, -, -⟩ := h
      obtain ⟨hx', -, -⟩ := h'
      rw [pyOr, pyOr, if_neg hx, if_neg hx'] at heq
      rw [heq]

/-- C8 (amended): absent parameters are rendered as canonical placeholder
tokens ("all" / "none" for the movie list family, the f-string rendering
"None" of an absent parent for the comment family — so a supplied parent id
equal to the literal string "None" collides with the absent state), and on
parameters that are truthy, distinct from their placeholder token and
colon-free, the movie list key construction is injective. -/
theorem C8_placeholders_and_injectivity :
    (∀ p l, movieListKey none none p l =
      "movies:list:all:none:".data ++ (natToChars p ++ ':' :: natToChars l)) ∧
      (∀ (ct cid : Str) (lim sk : ℕ), commentsListKey ct cid none lim sk =
        commentsListKey ct cid (some "None".data) lim sk) ∧
      (∀ (t t' s s' : Option Str) (p p' l l' : ℕ),
        goodParam t "all".data → goodParam t' "all".data →
        goodParam s "none".data → goodParam s' "none".data →
        movieListKey t s p l = movieListKey t' s' p' l' →
        t = t' ∧ s = s' ∧ p = p' ∧ l = l') := by
  refine ⟨fun p l => rfl, fun ct cid lim sk => rfl, ?_⟩
  intro t t' s s' p p' l l' ht ht' hs hs' heq
  unfold movieListKey at heq
  have h1 := List.append_cancel_left heq
  obtain ⟨e1, h2⟩ := colon_split_eq (pyOr_colon_free (by decide) ht)
    (pyOr_colon_free (by decide) ht') h1
  obtain ⟨e2, h3⟩ := colon_split_eq (pyOr_colon_free (by decide) hs)
    (pyOr_colon_free (by decide) hs') h2
  obtain ⟨e3, e4⟩ := colon_split_eq (colon_not_mem_natToChars p)
    (colon_not_mem_natToChars p') h3
  exact ⟨pyOr_inj ht ht' e1, pyOr_inj hs hs' e2, natToChars_inj e3, natToChars_inj e4⟩

/-- C8, witness: the injectivity part applied at concrete parameters
(tag "action", no search, page 2, limit 10). -/
theorem C8_placeholders_and_injectivity_witness :
    (some "action".data = some "action".data ∧ (none : Option Str) = none ∧
      2 = 2 ∧ 10 = 10) :=
  C8_placeholders_and_injectivity.2.2 (some "action".data) (some "action".data)
    none none 2 2 10 10 ⟨by decide, by decide, by decide⟩
    ⟨by decide, by decide, by decide⟩ trivial trivial rfl

/-! Comment sanitization (`comment_controller.py` lines 16-42).
`sanitize_comment_content` first HTML-escapes the content (Python
`html.escape`, which rewrites the five characters amp, lt, gt, double quote
and single quote to entities) and then strips the case-insensitive patterns
`javascript:`, `data:text/html`, `expression\s*\(` and `vbscript:`.
`decode_html_entities` is Python `html.unescape`; it is modelled here on the
entities `html.escape` emits, which is all the round-trip claim needs.  The
whitespace class is modelled by its ASCII members.  The fuel arguments of
the scanners are bounded by the input length, which suffices because every
step consumes at least one character. -/

/-- Replacement `html.escape` performs on one character. -/
def escChar (c : Char) : Str :=
  if c = '&' then "&amp;".data
  else if c = '<' then "&lt;".data
  else if c = '>' then "&gt;".data
  else if c = '"' then "&quot;".data
  else if c = '\'' then "&#x27;".data
  else [c]

/-- Python `html.escape` with its default quote handling. -/
def escape : Str → Str
  | [] => []
  | c :: cs => escChar c ++ escape cs

/-- Entity recognizer of the unescaper: decodes the entity at the head of
the string, returning the decoded character and the remainder. -/
def entAt (cs : Str) : Option (Char × Str) :=
  if "amp;".data.isPrefixOf cs then some ('&', cs.drop 4)
  else if "lt;".data.isPrefixOf cs then some ('<', cs.drop 3)
  else if "gt;".data.isPrefixOf cs then some ('>', cs.drop 3)
  else if "quot;".data.isPrefixOf cs then some ('"', cs.drop 5)
  else if "#x27;".data.isPrefixOf cs then some ('\'', cs.drop 5)
  else none

/-- Scanner of `html.unescape` (restricted to the escape-produced
entities). -/
def unescapeAux : ℕ → Str → Str
  | 0, s => s
  | _ + 1, [] => []
  | fuel + 1, c :: cs =>
    if c = '&' then
      match entAt cs with
      | some (d, rest) => d :: unescapeAux fuel rest
      | none => c :: unescapeAux fuel cs
    else c :: unescapeAux fuel cs

/-- Python `html.unescape` on the fragment of inputs this development
needs. -/
def unescape (s : Str) : Str := unescapeAux s.length s

/-- ASCII members of the regex whitespace class. -/
def isPyWS (c : Char) : Bool :=
  c = ' ' || c = '\t' || c = '\n' || c = '\r' || c = '\x0b' || c = '\x0c'

/-- Match of the regex `expression\s*\(` (case-insensitive) at the head of
the string: returns the remainder after the match. -/
def exprAt (s : Str) : Option Str :=
  if "expression".data.isPrefixOf (lowerStr s) then
    match (s.drop 10).dropWhile isPyWS with
    | '(' :: r => some r
    | _ => none
  else none

/-- Python `re.sub(pat, '', s, flags=re.IGNORECASE)` for a nonempty literal
pattern `p :: ps` (given lowercased): scan left to right, removing every
occurrence and continuing after it. -/
def subLitAux (p : Char) (ps : Str) : ℕ → Str → Str
  | 0, s => s
  | _ + 1, [] => []
  | fuel + 1, c :: cs =>
    if (p :: ps).isPrefixOf (lowerStr (c :: cs)) then subLitAux p ps fuel (cs.drop ps.length)
    else c :: subLitAux p ps fuel cs

/-- Literal-pattern substitution entry point. -/
def subLit (p : Char) (ps : Str) (s : Str) : Str := subLitAux p ps s.length s

/-- Substitution pass for the `expression\s*\(` pattern. -/
def subExprAux : ℕ → Str → Str
  | 0, s => s
  | _ + 1, [] => []
  | fuel + 1, c :: cs =>
    match exprAt (c :: cs) with
    | some r => subExprAux fuel r
    | none => c :: subExprAux fuel cs

/-- Regex-pattern substitution entry point. -/
def subExpr (s : Str) : Str := subExprAux s.length s

/-- Embedding of `sanitize_comment_content`: escape, then strip the four
patterns in the order the code lists them. -/
def sanitize_comment_content (s : Str) : Str :=
  subLit 'v' "bscript:".data
    (subExpr
      (subLit 'd' "ata:text/html".data
        (subLit 'j' "avascript:".data (escape s))))

/-- Embedding of `decode_html_entities`. -/
def decode_html_entities (s : Str) : Str := unescape s

/-- Case-insensitive literal-substring test (the pattern is given
lowercased), mirroring the positions `subLitAux` would match. -/
def containsCI (pat : Str) : Str → Bool
  | [] => pat.isEmpty
  | c :: cs => pat.isPrefixOf (lowerStr (c :: cs)) || containsCI pat cs

/-- Occurrence test for the `expression\s*\(` pattern. -/
def containsExpr : Str → Bool
  | [] => false
  | c :: cs => (exprAt (c :: cs)).isSome || containsExpr cs

theorem unescapeAux_escape :
    ∀ (fuel : ℕ) (s : Str), (escape s).length ≤ fuel → unescapeAux fuel (escape s) = s := by
  intro fuel
  induction fuel with
  | zero =>
    intro s hs
    cases s with
    | nil => rfl
    | cons c cs =>
      exfalso
      rw [escape, List.length_append] at hs
      have h1 : 1 ≤ (escChar c).length := by
        unfold escChar
        split_ifs <;> simp
      omega
  | succ fuel ih =>
    intro s hs
    cases s with
    | nil => rfl
    | cons c cs =>
      rw [escape] at hs ⊢
      by_cases h1 : c = '&'
      · subst h1
        have he : escChar '&' = '&' :: 'a' :: 'm' :: 'p' :: ';' :: [] := rfl
        rw [he] at hs ⊢
        simp only [List.cons_append, List.nil_append] at hs ⊢
        rw [unescapeAux, if_pos rfl]
        simp only [entAt, List.isPrefixOf]
        simp only [List.length_cons] at hs
        simp [ih cs (by omega)]
      by_cases h2 : c = '<'
      · subst h2
        have he : escChar '<' = '&' :: 'l' :: 't' :: ';' :: [] := rfl
        rw [he] at hs ⊢
        simp only [List.cons_append, List.nil_append] at hs ⊢
        rw [unescapeAux, if_pos rfl]
        simp only [entAt, List.isPrefixOf]
        simp only [List.length_cons] at hs
        simp [ih cs (by omega)]
      by_cases h3 : c = '>'
      · subst h3
        have he : escChar '>' = '&' :: 'g' :: 't' :: ';' :: [] := rfl
        rw [he] at hs ⊢
        simp only [List.cons_append, List.nil_append] at hs ⊢
        rw [unescapeAux, if_pos rfl]
        simp only [entAt, List.isPrefixOf]
        simp only [List.length_cons] at hs
        simp [ih cs (by omega)]
      by_cases h4 : c = '"'
      · subst h4
        have he : escChar '"' = '&' :: 'q' :: 'u' :: 'o' :: 't' :: ';' :: [] := rfl
        rw [he] at hs ⊢
        simp only [List.cons_append, List.nil_append] at hs ⊢
        rw [unescapeAux, if_pos rfl]
        simp only [entAt, List.isPrefixOf]
        simp only [List.length_cons] at hs
        simp [ih cs (by omega)]
      by_cases h5 : c = '\''
      · subst h5
        have he : escChar '\'' = '&' :: '#' :: 'x' :: '2' :: '7' :: ';' :: [] := rfl
        rw [he] at hs ⊢
        simp only [List.cons_append, List.nil_append] at hs ⊢
        rw [unescapeAux, if_pos rfl]
        simp only [entAt, List.isPrefixOf]
        simp only [List.length_cons] at hs
        simp [ih cs (by omega)]
      · have he : escChar c = [c] := by
          rw [escChar, if_neg h1, if_neg h2, if_neg h3, if_neg h4, if_neg h5]
        rw [he] at hs ⊢
        simp only [List.cons_append, List.nil_append] at hs ⊢
        rw [unescapeAux, if_neg h1]
        simp only [List.length_cons] at hs
        simp [ih cs (by omega)]

theorem unescape_escape (s : Str) : unescape (escape s) = s :=
  unescapeAux_escape (escape s).length s le_rfl

theorem subLitAux_of_not {p : Char} {ps : Str} :
    ∀ (fuel : ℕ) {s : Str}, containsCI (p :: ps) s = false → subLitAux p ps fuel s = s := by
  intro fuel
  induction fuel with
  | zero => intro s _; rfl
  | succ fuel ih =>
    intro s hs
    cases s with
    | nil => rfl
    | cons c cs =>
      rw [containsCI, Bool.or_eq_false_iff] at hs
      rw [subLitAux, if_neg (by simp [hs.1]), ih hs.2]

theorem subLit_of_not {p : Char} {ps : Str} {s : Str}
    (h : containsCI (p :: ps) s = false) : subLit p ps s = s :=
  subLitAux_of_not s.length h

theorem subExprAux_of_not :
    ∀ (fuel : ℕ) {s : Str}, containsExpr s = false → subExprAux fuel s = s := by
  intro fuel
  induction fuel with
  | zero => intro s _; rfl
  | succ fuel ih =>
    intro s hs
    cases s with
    | nil => rfl
    | cons c cs =>
      rw [containsExpr, Bool.or_eq_false_iff] at hs
      have hnone : exprAt (c :: cs) = none := by
        rcases hx : exprAt (c :: cs) with - | r
        · rfl
        · rw [hx] at hs; simp at hs
      rw [subExprAux, hnone]
      rw [ih hs.2]

theorem subExpr_of_not {s : Str} (h : containsExpr s = false) : subExpr s = s :=
  subExprAux_of_not s.length h

/-- C10, counterexample.  For the content "expression (a" the HTML-escaped
form contains none of the four literal patterns the claim lists — in
particular not `expression(`, because of the intervening space — yet the
regex `expression\s*\(` strips the prefix and the round trip returns "a",
not the original content. -/
theorem C10_counterexample :
    (containsCI "javascript:".data (escape "expression (a".data) = false) ∧
      (containsCI "data:text/html".data (escape "expression (a".data) = false) ∧
      (containsCI "expression(".data (escape "expression (a".data) = false) ∧
      (containsCI "vbscript:".data (escape "expression (a".data) = false) ∧
      decode_html_entities (sanitize_comment_content "expression (a".data) = "a".data ∧
      decode_html_entities (sanitize_comment_content "expression (a".data) ≠
        "expression (a".data :=
  ⟨by decide, by decide, by decide, by decide, by decide, by decide⟩

/-- C10 (amended): for every content string whose HTML-escaped form contains
no case-insensitive occurrence of `javascript:`, `data:text/html` or
`vbscript:`, and no occurrence of `expression` followed by optional
whitespace and an opening parenthesis (the regex the code actually strips),
decoding the sanitized content returns the original content. -/
theorem C10_sanitize_roundtrip (c : Str)
    (h1 : containsCI "javascript:".data (escape c) = false)
    (h2 : containsCI "data:text/html".data (escape c) = false)
    (h3 : containsExpr (escape c) = false)
    (h4 : containsCI "vbscript:".data (escape c) = false) :
    decode_html_entities (sanitize_comment_content c) = c := by
  unfold sanitize_comment_content decode_html_entities
  rw [@subLit_of_not 'j' "avascript:".data _ h1]
  rw [@subLit_of_not 'd' "ata:text/html".data _ h2]
  rw [subExpr_of_not h3]
  rw [@subLit_of_not 'v' "bscript:".data _ h4]
  exact unescape_escape c

/-- C10, witness: the round trip applied to the content
"hello <b>world</b> & 'quotes'". -/
theorem C10_sanitize_roundtrip_witness :
    decode_html_entities (sanitize_comment_content "hello <b>world</b> & 'quotes'".data) =
      "hello <b>world</b> & 'quotes'".data :=
  C10_sanitize_roundtrip "hello <b>world</b> & 'quotes'".data
    (by decide) (by decide) (by decide) (by decide)
